import Mathlib

/-!
Verification of the ReplayTrader core against its specification.

The definitions below are a shallow embedding of the TypeScript source:
`src/lib/replayEngine.ts` (replay state machine), `src/components/CsvUploader.tsx`
(format detection and row parsing), and `src/lib/useDataSessions.ts` (session
registry and best-effort persistence).  JS numbers that only ever hold integers
are embedded as `Int`/`Nat`; general numeric fields as `ℚ`; the special JS
values `NaN`/`Infinity` that arise in `progress` are embedded by an explicit
`JSNum` type; thrown JS exceptions are embedded as `Except Unit`.
-/

namespace ReplayTrader

/-- Model of a JS `number` restricted to the values reachable in the
`progress` computation: a finite rational, `NaN`, or a signed infinity. -/
inductive JSNum where
  | num (q : ℚ)
  | nan
  | inf
  | ninf
deriving DecidableEq, Repr

/-- JS division `a / b`: division by zero gives `NaN` for `0 / 0` and a signed
infinity otherwise; any operation on `NaN` gives `NaN`. -/
def jsDiv : JSNum → JSNum → JSNum
  | .nan, _ => .nan
  | _, .nan => .nan
  | .num a, .num b =>
      if b = 0 then (if a = 0 then .nan else if 0 < a then .inf else .ninf)
      else .num (a / b)
  | .num _, .inf => .num 0
  | .num _, .ninf => .num 0
  | .inf, .num b => if 0 ≤ b then .inf else .ninf
  | .ninf, .num b => if 0 ≤ b then .ninf else .inf
  | .inf, .inf => .nan
  | .inf, .ninf => .nan
  | .ninf, .inf => .nan
  | .ninf, .ninf => .nan

/-- JS multiplication, restricted to the values of `JSNum`; `NaN` is absorbing,
`Infinity * 0` is `NaN`. -/
def jsMul : JSNum → JSNum → JSNum
  | .nan, _ => .nan
  | _, .nan => .nan
  | .num a, .num b => .num (a * b)
  | .inf, .num b => if b = 0 then .nan else if 0 < b then .inf else .ninf
  | .ninf, .num b => if b = 0 then .nan else if 0 < b then .ninf else .inf
  | .num a, .inf => if a = 0 then .nan else if 0 < a then .inf else .ninf
  | .num a, .ninf => if a = 0 then .nan else if 0 < a then .ninf else .inf
  | .inf, .inf => .inf
  | .inf, .ninf => .ninf
  | .ninf, .inf => .ninf
  | .ninf, .ninf => .inf

/-- The replay engine state (`ReplayState` plus the `currentIndex` cell of
`useReplayEngine` in `src/lib/replayEngine.ts`).  `currentIndex` is an `Int`
because the code can drive it below zero.  The autoplay interval handle is not
part of the value state and is not modelled. -/
structure ReplayState where
  timestamps : List Int
  currentIndex : Int
  isPlaying : Bool
  playSpeed : Int
deriving DecidableEq, Repr

/-- Source: `const totalCandles = timestamps.length`. -/
def totalCandles (s : ReplayState) : Int :=
  (s.timestamps.length : Int)

/-- Source, line 62 of `replayEngine.ts`:
`totalCandles > 0 ? (currentIndex / (totalCandles - 1)) * 100 : 0`.
The division is JS division, so a one-element list gives `0 / 0 = NaN`. -/
def progress (s : ReplayState) : JSNum :=
  if 0 < totalCandles s then
    jsMul (jsDiv (.num (s.currentIndex : ℚ)) (.num ((totalCandles s - 1 : Int) : ℚ))) (.num 100)
  else .num 0

/-- Source: the engine's `initialize(ts)` action sets the timestamp list,
index 0, not playing.  (Renamed here: the source name is a Lean keyword.) -/
def initReplay (ts : List Int) (s : ReplayState) : ReplayState :=
  { s with timestamps := ts, currentIndex := 0, isPlaying := false }

/-- Source: `stepForward(n)` sets `currentIndex` to
`Math.min(prev + n, totalCandles - 1)`.  Note there is no lower clamp. -/
def stepForward (n : Int) (s : ReplayState) : ReplayState :=
  { s with currentIndex := min (s.currentIndex + n) (totalCandles s - 1) }

/-- Source: `stepBackward(n)` sets `currentIndex` to `Math.max(prev - n, 0)`. -/
def stepBackward (n : Int) (s : ReplayState) : ReplayState :=
  { s with currentIndex := max (s.currentIndex - n) 0 }

/-- Source: `play` sets `isPlaying` to true unconditionally. -/
def play (s : ReplayState) : ReplayState :=
  { s with isPlaying := true }

/-- Source: `pause` sets `isPlaying` to false (and clears the interval, which
is not part of the value state). -/
def pause (s : ReplayState) : ReplayState :=
  { s with isPlaying := false }

/-- Source: `togglePlay` negates `isPlaying`. -/
def togglePlay (s : ReplayState) : ReplayState :=
  { s with isPlaying := !s.isPlaying }

/-- Source: `setIndex(i)` sets `currentIndex` to
`Math.max(0, Math.min(i, totalCandles - 1))` — the lower clamp is applied
after the upper clamp. -/
def setIndex (i : Int) (s : ReplayState) : ReplayState :=
  { s with currentIndex := max 0 (min i (totalCandles s - 1)) }

/-- Source: `reset` pauses and then sets the index to 0. -/
def reset (s : ReplayState) : ReplayState :=
  { pause s with currentIndex := 0 }

/-! ### CSV format detection (`src/components/CsvUploader.tsx`) -/

/-- Whitespace recognised by JS `trim` (the characters that occur in practice). -/
def isSpaceChar (c : Char) : Bool :=
  c = ' ' || c = '\t' || c = '\n' || c = '\r'

/-- Model of JS `h.trim().toLowerCase().replace(/[<>"]/g, '')` from
`detectFormat`: trim surrounding whitespace, lower-case, drop `<`, `>`, `"`. -/
def normalizeHeader (h : String) : String :=
  ((((h.toList.dropWhile isSpaceChar).reverse.dropWhile isSpaceChar).reverse.map
      Char.toLower).filter (fun c => !(c = '<' || c = '>' || c = '"'))).asString

/-- Does character list `s` start with `pat`? -/
def startsWithL : List Char → List Char → Bool
  | _, [] => true
  | [], _ :: _ => false
  | a :: as, b :: bs => a = b && startsWithL as bs

/-- Model of JS `String.prototype.endsWith`. -/
def strEndsWith (s pat : String) : Bool :=
  startsWithL s.toList.reverse pat.toList.reverse

/-- Model of JS `String.prototype.includes` (substring containment). -/
def strIncludes (s pat : String) : Bool :=
  let rec go : List Char → Bool
    | [] => startsWithL [] pat.toList
    | a :: as => startsWithL (a :: as) pat.toList || go as
  go s.toList

/-- Model of JS `Array.prototype.findIndex` restricted to string arrays,
returning `none` for "not found". -/
def findIdxN (p : String → Bool) : List String → Option Nat
  | [] => none
  | a :: as => if p a then some 0 else (findIdxN p as).map (· + 1)

/-- `findIdxN` as the JS integer result (`-1` for "not found"). -/
def findIdxInt (p : String → Bool) (l : List String) : Int :=
  match findIdxN p l with
  | some i => (i : Int)
  | none => -1

/-- Model of JS `Array.prototype.indexOf` on strings. -/
def indexOfStr (l : List String) (s : String) : Int :=
  findIdxInt (fun h => h = s) l

/-- The matching test used by `findCol`:
`h === name || h.endsWith(name)`. -/
def colMatch (name h : String) : Bool :=
  h = name || strEndsWith h name

/-- Source `findCol`: first name in `names` that some header equals or ends
with wins; `-1` if none does. -/
def findCol (headers : List String) : List String → Int
  | [] => -1
  | n :: rest =>
      let idx := findIdxInt (colMatch n) headers
      if 0 ≤ idx then idx else findCol headers rest

/-- The `timestampFormat` tags of `ColumnMapping` in the source. -/
inductive TSFormat where
  | unix_auto
  | unix_s
  | unix_ms
  | unix_us
  | iso
  | stooq
  | histdata
deriving DecidableEq, Repr

/-- Source `ColumnMapping`: column indices (JS numbers, `-1` for "absent")
plus the timestamp-encoding tag.  The `open` field is written `«open»`
because `open` is a Lean keyword. -/
structure ColumnMapping where
  timestamp : Int
  «open» : Int
  high : Int
  low : Int
  close : Int
  volume : Int
  timestampFormat : TSFormat
deriving DecidableEq, Repr

/-- Trigger of detection rule 1 (Binance):
`lower.includes('open_time') || lower[0] === 'open_time'`; `lower[0]` is
embedded as `lower.headD ""` (the source is only ever called with a nonempty
header list, since `split` always yields at least one field). -/
def rule1Cond (lower : List String) : Bool :=
  lower.contains "open_time" || lower.headD "" = "open_time"

/-- Mapping produced by rule 1 (millisecond-epoch encoding). -/
def rule1Map (lower : List String) : ColumnMapping :=
  { timestamp := if 0 ≤ indexOfStr lower "open_time" then indexOfStr lower "open_time" else 0
    «open» := findCol lower ["open"]
    high := findCol lower ["high"]
    low := findCol lower ["low"]
    close := findCol lower ["close"]
    volume := findCol lower ["volume"]
    timestampFormat := .unix_ms }

/-- Trigger of detection rule 2 (Stooq):
`lower.includes('date') && lower.includes('open')`. -/
def rule2Cond (lower : List String) : Bool :=
  lower.contains "date" && lower.contains "open"

/-- Mapping produced by rule 2 (compact-date encoding). -/
def rule2Map (lower : List String) : ColumnMapping :=
  { timestamp := indexOfStr lower "date"
    «open» := findCol lower ["open"]
    high := findCol lower ["high"]
    low := findCol lower ["low"]
    close := findCol lower ["close"]
    volume := findCol lower ["volume", "vol"]
    timestampFormat := .stooq }

/-- Trigger of detection rule 3 (HistData):
`lower.includes('dtyyyymmdd') || lower.includes('date') ||
lower[0].includes('dt')`. -/
def rule3Cond (lower : List String) : Bool :=
  lower.contains "dtyyyymmdd" || lower.contains "date" ||
    strIncludes (lower.headD "") "dt"

/-- Mapping produced by rule 3 (compact date[+time] encoding), with the
positional fallbacks of the source. -/
def rule3Map (lower : List String) : ColumnMapping :=
  { timestamp := 0
    «open» := if 0 ≤ findCol lower ["open"] then findCol lower ["open"] else 2
    high := if 0 ≤ findCol lower ["high"] then findCol lower ["high"] else 3
    low := if 0 ≤ findCol lower ["low"] then findCol lower ["low"] else 4
    close := if 0 ≤ findCol lower ["close"] then findCol lower ["close"] else 5
    volume := if 0 ≤ findCol lower ["vol", "volume"] then findCol lower ["vol", "volume"] else 6
    timestampFormat := .histdata }

/-- Guard of detection rule 4 (generic names): all five required columns
found. -/
def rule4Cond (lower : List String) : Bool :=
  0 ≤ findCol lower ["timestamp", "time", "datetime", "date"] &&
  0 ≤ findCol lower ["open"] && 0 ≤ findCol lower ["high"] &&
  0 ≤ findCol lower ["low"] && 0 ≤ findCol lower ["close"]

/-- Mapping produced by rule 4 (generic fallback, `iso` encoding). -/
def rule4Map (lower : List String) : ColumnMapping :=
  { timestamp := findCol lower ["timestamp", "time", "datetime", "date"]
    «open» := findCol lower ["open"]
    high := findCol lower ["high"]
    low := findCol lower ["low"]
    close := findCol lower ["close"]
    volume := if 0 ≤ findCol lower ["volume", "vol"] then findCol lower ["volume", "vol"] else -1
    timestampFormat := .iso }

/-- Rule 5, the headerless positional fallback: at least 5 columns assumed
ordered, per-row timestamp scale chosen later by magnitude (`unix_auto`). -/
def rule5 (lower : List String) : Option ColumnMapping :=
  if 5 ≤ lower.length then
    some { timestamp := 0, «open» := 1, high := 2, low := 3, close := 4
           volume := if 5 < lower.length then 5 else -1
           timestampFormat := .unix_auto }
  else none

/-- The priority-ordered rule chain of `detectFormat`, applied to the already
normalized (lower-cased) header tokens. -/
def detectFromLower (lower : List String) : Option ColumnMapping :=
  if rule1Cond lower then some (rule1Map lower)
  else if rule2Cond lower then some (rule2Map lower)
  else if rule3Cond lower then some (rule3Map lower)
  else if rule4Cond lower then some (rule4Map lower)
  else rule5 lower

/-- Source `detectFormat`: normalize the raw header tokens, then run the
priority-ordered rule chain. -/
def detectFormat (headers : List String) : Option ColumnMapping :=
  detectFromLower (headers.map normalizeHeader)

/-! ### Timestamp parsing (`parseTimestamp` in `CsvUploader.tsx`) -/

/-- Source, the `unix_auto` branch of `parseTimestamp`:
`n > 1e15 → floor(n/1_000_000)`; `n > 1e12 → floor(n/1_000)`; else `n`.
The argument is the JS numeric value `Number(value)`. -/
def parseUnixAuto (n : ℚ) : ℚ :=
  if (10 : ℚ) ^ 15 < n then ((⌊n / 1000000⌋ : ℤ) : ℚ)
  else if (10 : ℚ) ^ 12 < n then ((⌊n / 1000⌋ : ℤ) : ℚ)
  else n

/-- Number of decimal digits of a nonnegative integer (`0` has zero digits),
computed with explicit fuel; 64 units of fuel cover every value in scope. -/
def digitCountAux : Nat → Nat → Nat
  | 0, _ => 0
  | fuel + 1, v => if v = 0 then 0 else digitCountAux fuel (v / 10) + 1

/-- Decimal digit count, the quantity the specification's scale rule is
phrased in. -/
def digitCount (v : Nat) : Nat :=
  digitCountAux 64 v

/-- Modelled from the spec: the per-row scale rule as literally worded —
"at most 10 digits is interpreted as seconds (returned unchanged), at most 13
digits as milliseconds (divided by 1000), and anything longer as microseconds
(divided by 1,000,000), the result floored to integer seconds". -/
def specDigitScale (v : Nat) : Nat :=
  if digitCount v ≤ 10 then v
  else if digitCount v ≤ 13 then v / 1000
  else v / 1000000

/-- Value of a list of decimal digit characters, most significant first. -/
def digitsToNat (cs : List Char) : Nat :=
  cs.foldl (fun acc c => acc * 10 + (c.toNat - 48)) 0

/-- Model of JS `parseInt(s)` (radix 10): optional sign, then the longest
prefix of decimal digits; `NaN` (here `none`) if that prefix is empty. -/
def parseIntJS (s : String) : Option Int :=
  let core : List Char → Option Nat := fun cs =>
    let ds := cs.takeWhile Char.isDigit
    if ds.isEmpty then none else some (digitsToNat ds)
  match s.toList with
  | '-' :: rest => (core rest).map (fun n => -(n : Int))
  | '+' :: rest => (core rest).map (fun n => (n : Int))
  | cs => (core cs).map (fun n => (n : Int))

/-- Days from 1970-01-01 of the Gregorian date `(y, m, d)` with `m` in 1..12,
by the standard civil-from-days algorithm — the day arithmetic that JS
`Date` performs for in-range arguments. -/
def daysFromCivil (y m d : Int) : Int :=
  let y' := if m ≤ 2 then y - 1 else y
  let era := (if 0 ≤ y' then y' else y' - 399) / 400
  let yoe := y' - era * 400
  let doy := (153 * (if 2 < m then m - 3 else m + 9) + 2) / 5 + d - 1
  let doe := yoe * 365 + yoe / 4 - yoe / 100 + doy
  era * 146097 + doe - 719468

/-- Source, the `stooq` branch of `parseTimestamp`: strip `-`, take digit
slices `[0,4)`, `[4,6)`, `[6,8)` with `parseInt`, and build
`new Date(y, m, d)` — which is **local** midnight, here modelled for a runtime
timezone a constant `tzMin` minutes east of UTC (local midnight is `tzMin`
minutes before UTC midnight), then `Math.floor(getTime() / 1000)`.
A failed `parseInt` makes the `Date` invalid and the result `NaN` (`none`).
The model covers in-range dates with year ≥ 100 (JS maps years 0–99 to
1900+y) — every value the compact `YYYYMMDD`/`YYYY-MM-DD` encodings produce. -/
def parseStooq (tzMin : Int) (value : String) : Option Int :=
  let cleaned := value.toList.filter (fun c => c ≠ '-')
  match parseIntJS (cleaned.take 4).asString,
        parseIntJS ((cleaned.drop 4).take 2).asString,
        parseIntJS ((cleaned.drop 6).take 2).asString with
  | some y, some mm, some d =>
      let m := mm - 1
      some (daysFromCivil y (m + 1) d * 86400 - tzMin * 60)
  | _, _, _ => none

/-! ### Row parsing (`processFile` in `CsvUploader.tsx`) -/

/-- One canonical bar, as produced by ingestion (`OHLCCandle` in
`src/lib/queries.ts`).  `time` is kept as `ℚ`, like every JS number. -/
structure OHLCCandle where
  time : ℚ
  «open» : ℚ
  high : ℚ
  low : ℚ
  close : ℚ
  volume : ℚ
deriving DecidableEq, Repr

/-- JS indexing `cols[i]`: `undefined` (here `none`) outside the array. -/
def getField (cols : List String) (i : Int) : Option String :=
  if 0 ≤ i then cols.get? i.toNat else none

/-- Model of JS `parseFloat` on an optionally-undefined field, for plain
decimal numerals (optional sign, digits, optional fraction) — the only forms
the bar fields take; `none` is `NaN`, which `parseFloat(undefined)` also is. -/
def parseFloatOpt (s? : Option String) : Option ℚ :=
  match s? with
  | none => none
  | some s =>
      let cs := s.toList.dropWhile isSpaceChar
      let signAndRest : ℚ × List Char :=
        match cs with
        | '-' :: r => (-1, r)
        | '+' :: r => (1, r)
        | _ => (1, cs)
      let ints := signAndRest.2.takeWhile Char.isDigit
      let rest := signAndRest.2.dropWhile Char.isDigit
      let frac :=
        match rest with
        | '.' :: r => r.takeWhile Char.isDigit
        | _ => []
      if ints.isEmpty && frac.isEmpty then none
      else some (signAndRest.1 *
        ((digitsToNat ints : ℚ) + (digitsToNat frac : ℚ) / (10 : ℚ) ^ frac.length))

/-- The `stooq` timestamp parser as called by the row loop: applying it to an
`undefined` field (`value.replace` on `undefined`) **throws** (`.error`),
which the surrounding `try` of `processFile` turns into a fatal abort. -/
def stooqTs (tzMin : Int) (v? : Option String) : Except Unit (Option ℚ) :=
  match v? with
  | none => .error ()
  | some v => .ok ((parseStooq tzMin v).map (fun t => (t : ℚ)))

/-- The body of the row loop of `processFile` for one row: skip the row
(`.ok none`) if it has fewer than 5 fields; parse the timestamp (which may
throw, aborting ingestion) and the four required floats; skip on any `NaN`;
a missing or unparsable volume defaults to 0.  The timestamp parser `pTs` and
the float parser `pNum` are the respective JS parsers for the detected
format. -/
def parseRow (pTs : Option String → Except Unit (Option ℚ))
    (pNum : Option String → Option ℚ)
    (m : ColumnMapping) (cols : List String) : Except Unit (Option OHLCCandle) :=
  if cols.length < 5 then .ok none
  else
    match pTs (getField cols m.timestamp) with
    | .error e => .error e
    | .ok ts? =>
        let o? := pNum (getField cols m.«open»)
        let h? := pNum (getField cols m.high)
        let l? := pNum (getField cols m.low)
        let c? := pNum (getField cols m.close)
        let vol : ℚ := if 0 ≤ m.volume then (pNum (getField cols m.volume)).getD 0 else 0
        match ts?, o?, h?, l?, c? with
        | some t, some o, some h, some l, some c => .ok (some ⟨t, o, h, l, c, vol⟩)
        | _, _, _, _, _ => .ok none

/-- The row loop of `processFile`: rows in order, dropped rows skipped, a
thrown timestamp parse aborting the whole loop (caught by the outer `try`,
which fails the ingestion). -/
def rowsLoop (pTs : Option String → Except Unit (Option ℚ))
    (pNum : Option String → Option ℚ)
    (m : ColumnMapping) : List (List String) → Except Unit (List OHLCCandle)
  | [] => .ok []
  | cols :: rest =>
      match parseRow pTs pNum m cols with
      | .error e => .error e
      | .ok none => rowsLoop pTs pNum m rest
      | .ok (some c) =>
          match rowsLoop pTs pNum m rest with
          | .error e => .error e
          | .ok tail => .ok (c :: tail)

/-- Source `processFile`, lines 188–206: run the row loop, then
`candles.sort((a, b) => a.time - b.time)` — an ascending stable sort,
embedded as `mergeSort`. -/
def processRows (pTs : Option String → Except Unit (Option ℚ))
    (pNum : Option String → Option ℚ)
    (m : ColumnMapping) (rows : List (List String)) : Except Unit (List OHLCCandle) :=
  match rowsLoop pTs pNum m rows with
  | .error e => .error e
  | .ok candles => .ok (candles.mergeSort (fun a b => decide (a.time ≤ b.time)))

/-- The keep criterion of the claim and spec: a row is kept when it has at
least 5 fields and every required numeric field — timestamp, open, high, low,
close — parses.  Used to state the accepted-row-count property. -/
def rowKept (pTs : Option String → Except Unit (Option ℚ))
    (pNum : Option String → Option ℚ)
    (m : ColumnMapping) (cols : List String) : Bool :=
  5 ≤ cols.length &&
  (match pTs (getField cols m.timestamp) with
   | .ok (some _) => true
   | _ => false) &&
  (pNum (getField cols m.«open»)).isSome &&
  (pNum (getField cols m.high)).isSome &&
  (pNum (getField cols m.low)).isSome &&
  (pNum (getField cols m.close)).isSome

/-- The bar a row contributes, `none` when the row is skipped (a throwing row
is mapped to `none` here; the theorems about the loop assume no row throws
and handle the throwing case separately). -/
def parseRowOk (pTs : Option String → Except Unit (Option ℚ))
    (pNum : Option String → Option ℚ)
    (m : ColumnMapping) (cols : List String) : Option OHLCCandle :=
  match parseRow pTs pNum m cols with
  | .ok c? => c?
  | .error _ => none

/-! ### Session registry (`src/lib/useDataSessions.ts`)

The persistence layer (`localStorage`) is embedded as a record of operations
that may throw (`Except Unit`); JSON serialization is abstracted as encoder
parameters, since no registry claim depends on the payload bytes. -/

/-- One loaded dataset. -/
structure Session where
  id : String
  name : String
  candles : List OHLCCandle
deriving DecidableEq, Repr

/-- The in-memory registry state: the session list and the active id. -/
structure RegistryState where
  sessions : List Session
  activeSessionId : Option String
deriving DecidableEq, Repr

/-- The key-value store underlying persistence; each operation may throw. -/
structure Storage where
  getItem : String → Except Unit (Option String)
  setItem : String → String → Except Unit Unit
  removeItem : String → Except Unit Unit

/-- Storage plus the JSON encoders used by the registry. -/
structure Persistence where
  storage : Storage
  encodeMeta : List (String × String) → String
  encodeCandles : List OHLCCandle → String

/-- Source constant `SESSIONS_KEY`. -/
def SESSIONS_KEY : String := "replaytrader-sessions"

/-- Source `saveSessionMeta`: a `setItem` wrapped in `try/catch`, so a
throwing store is swallowed and the function always returns. -/
def saveSessionMeta (P : Persistence) (metas : List (String × String)) : Unit :=
  match P.storage.setItem SESSIONS_KEY (P.encodeMeta metas) with
  | .ok _ => ()
  | .error _ => ()

/-- Source `saveSessionCandles`: a `setItem` wrapped in `try/catch`
(quota overflow only logs a warning). -/
def saveSessionCandles (P : Persistence) (id : String) (candles : List OHLCCandle) : Unit :=
  match P.storage.setItem ("rt-candles-" ++ id) (P.encodeCandles candles) with
  | .ok _ => ()
  | .error _ => ()

/-- Source `removeSessionCandles`: `localStorage.removeItem` with **no**
`try/catch` — unlike every sibling helper, a throw propagates. -/
def removeSessionCandles (P : Persistence) (id : String) : Except Unit Unit :=
  P.storage.removeItem ("rt-candles-" ++ id)

/-- Source `loadSessionMeta`: `getItem` + `JSON.parse` inside `try/catch`;
any throw, or a missing key, yields `[]`.  The decoder is total because its
failures are caught by the same `try`. -/
def loadSessionMeta (σ : Storage) (dec : String → List (String × String)) :
    List (String × String) :=
  match σ.getItem SESSIONS_KEY with
  | .error _ => []
  | .ok none => []
  | .ok (some raw) => dec raw

/-- Source `loadSessionCandles`: like `loadSessionMeta`, yielding `[]` on any
failure. -/
def loadSessionCandles (σ : Storage) (dec : String → List OHLCCandle) (id : String) :
    List OHLCCandle :=
  match σ.getItem ("rt-candles-" ++ id) with
  | .error _ => []
  | .ok none => []
  | .ok (some raw) => dec raw

/-- Source `addSession` (the fresh id from `generateId` is a parameter):
append the session, persist meta and payload (both best-effort), activate it.
Always returns `.ok` — nothing in it can throw. -/
def addSession (P : Persistence) (st : RegistryState) (id name : String)
    (candles : List OHLCCandle) : Except Unit RegistryState :=
  let updated := st.sessions ++ [⟨id, name, candles⟩]
  let _u1 := saveSessionMeta P (updated.map (fun s => (s.id, s.name)))
  let _u2 := saveSessionCandles P id candles
  .ok { sessions := updated, activeSessionId := some id }

/-- Source `removeSession`: filter the session out, persist the meta
(best-effort), fix up the active id, then delete the payload — whose
uncaught throw escapes the operation. -/
def removeSession (P : Persistence) (st : RegistryState) (id : String) :
    Except Unit RegistryState :=
  let updated := st.sessions.filter (fun s => !(s.id = id))
  let _u1 := saveSessionMeta P (updated.map (fun s => (s.id, s.name)))
  let newActive :=
    if st.activeSessionId = some id then
      match updated with
      | [] => none
      | s :: _ => some s.id
    else st.activeSessionId
  match removeSessionCandles P id with
  | .ok _ => .ok { sessions := updated, activeSessionId := newActive }
  | .error e => .error e

/-- Source `switchSession`: changes the active id only; touches no storage. -/
def switchSession (st : RegistryState) (id : String) : RegistryState :=
  { st with activeSessionId := some id }

/-- Source, the mount effect of `useDataSessions`: load the persisted metas,
attach each payload, drop sessions with an empty payload, activate the first
survivor.  Built from catching loaders only, so it is total. -/
def restoreSessions (σ : Storage) (decMeta : String → List (String × String))
    (decCandles : String → List OHLCCandle) : RegistryState :=
  let meta := loadSessionMeta σ decMeta
  if 0 < meta.length then
    let loaded := (meta.map (fun m =>
      (⟨m.1, m.2, loadSessionCandles σ decCandles m.1⟩ : Session))).filter
        (fun s => 0 < s.candles.length)
    match loaded with
    | [] => { sessions := [], activeSessionId := none }
    | s :: rest => { sessions := s :: rest, activeSessionId := some s.id }
  else { sessions := [], activeSessionId := none }

/-- A persistence layer in which every storage operation throws — quota
exhausted or storage unavailable. -/
def failingPersistence : Persistence where
  storage :=
    { getItem := fun _ => .error ()
      setItem := fun _ _ => .error ()
      removeItem := fun _ => .error () }
  encodeMeta := fun _ => ""
  encodeCandles := fun _ => ""

/-- Decidable equality of `Except` results, for evaluating registry and
ingestion outcomes on concrete inputs. -/
instance {ε α : Type} [DecidableEq ε] [DecidableEq α] : DecidableEq (Except ε α)
  | .ok a, .ok b =>
      if h : a = b then isTrue (by rw [h])
      else isFalse (by intro hh; cases hh; exact h rfl)
  | .ok _, .error _ => isFalse (by intro h; cases h)
  | .error _, .ok _ => isFalse (by intro h; cases h)
  | .error e, .error f =>
      if h : e = f then isTrue (by rw [h])
      else isFalse (by intro hh; cases hh; exact h rfl)

/-- Every column name the detector's rules 1–4 can react to, via equality
(`includes`/`indexOf`) or the equals-or-endsWith test of `findCol`. -/
def recognizedNames : List String :=
  ["open_time", "dtyyyymmdd", "timestamp", "datetime", "date", "time",
   "open", "high", "low", "close", "volume", "vol"]

/-! ## Theorems -/

/-- C1: the spec says `progress = index/(len-1)·100`, or 0 if `len ≤ 1`, so a
1-element timeline must have `progress = 0`.  The code only guards `len = 0`:
at `len = 1` it computes `(0 / 0) * 100 = NaN`, violating the claim (and the
source's own `progress: number; // 0–100` contract).  The `len = 0` and
`len > 1` parts do hold, as the first two conjuncts show. -/
theorem c1_progress_len_le_one :
    progress ⟨[], 0, false, 300⟩ = JSNum.num 0 ∧
    progress ⟨[5, 9], 1, false, 300⟩ = JSNum.num 100 ∧
    progress ⟨[42], 0, false, 300⟩ = JSNum.nan ∧
    JSNum.nan ≠ JSNum.num 0 := by
  refine ⟨by decide, ?_, by decide, by decide⟩
  show jsMul (jsDiv (.num 1) (.num ((2 - 1 : Int) : ℚ))) (.num 100) = JSNum.num 100
  norm_num [jsDiv, jsMul]

/-- C2 (counterexample): on the empty timestamp list, `stepForward(1)` sets
the index to `Math.min(0 + 1, 0 - 1) = -1` — the index does become negative,
contrary to the claim. -/
theorem c2_step_counterexample :
    stepForward 1 ⟨[], 0, false, 300⟩ = ⟨[], -1, false, 300⟩ ∧
    (stepForward 1 ⟨[], 0, false, 300⟩).currentIndex < 0 := by
  constructor
  · show (⟨[], min (0 + 1) ((0 : Int) - 1), false, 300⟩ : ReplayState) = _
    norm_num
  · show min (0 + 1) ((0 : Int) - 1) < 0
    norm_num

/-- C2 (amended): for a state whose index is in range `[0, len-1]` (hence a
nonempty timestamp list) and a step count `n ≥ 0`, `stepForward(n)` and
`stepBackward(n)` keep the index inside `[0, len-1]`, are a no-op at the
respective boundary, and leave the playing flag unchanged.  On an empty list
`stepForward` instead drives the index to `-1`. -/
theorem c2_step_clamped (s : ReplayState) (n : Int) (hn : 0 ≤ n)
    (h0 : 0 ≤ s.currentIndex) (h1 : s.currentIndex ≤ totalCandles s - 1) :
    (0 ≤ (stepForward n s).currentIndex ∧
      (stepForward n s).currentIndex ≤ totalCandles s - 1) ∧
    (0 ≤ (stepBackward n s).currentIndex ∧
      (stepBackward n s).currentIndex ≤ totalCandles s - 1) ∧
    (stepForward n s).isPlaying = s.isPlaying ∧
    (stepBackward n s).isPlaying = s.isPlaying ∧
    (s.currentIndex = totalCandles s - 1 → stepForward n s = s) ∧
    (s.currentIndex = 0 → stepBackward n s = s) := by
  refine ⟨⟨?_, ?_⟩, ⟨?_, ?_⟩, rfl, rfl, ?_, ?_⟩
  · show 0 ≤ min (s.currentIndex + n) (totalCandles s - 1)
    omega
  · show min (s.currentIndex + n) (totalCandles s - 1) ≤ totalCandles s - 1
    omega
  · show 0 ≤ max (s.currentIndex - n) 0
    omega
  · show max (s.currentIndex - n) 0 ≤ totalCandles s - 1
    omega
  · intro hb
    have : min (s.currentIndex + n) (totalCandles s - 1) = s.currentIndex := by omega
    simp [stepForward, this]
  · intro hb
    have : max (s.currentIndex - n) 0 = s.currentIndex := by omega
    simp [stepBackward, this]

/-- C2 (witness): the amended statement instantiated at a concrete mid-range
state of a 3-element timeline with step count 1. -/
theorem c2_step_clamped_witness :
    (0 ≤ (stepForward 1 ⟨[10, 20, 30], 1, false, 300⟩).currentIndex ∧
      (stepForward 1 ⟨[10, 20, 30], 1, false, 300⟩).currentIndex ≤
        totalCandles ⟨[10, 20, 30], 1, false, 300⟩ - 1) ∧
    (0 ≤ (stepBackward 1 ⟨[10, 20, 30], 1, false, 300⟩).currentIndex ∧
      (stepBackward 1 ⟨[10, 20, 30], 1, false, 300⟩).currentIndex ≤
        totalCandles ⟨[10, 20, 30], 1, false, 300⟩ - 1) ∧
    (stepForward 1 ⟨[10, 20, 30], 1, false, 300⟩).isPlaying = false ∧
    (stepBackward 1 ⟨[10, 20, 30], 1, false, 300⟩).isPlaying = false ∧
    ((1 : Int) = totalCandles ⟨[10, 20, 30], 1, false, 300⟩ - 1 →
      stepForward 1 ⟨[10, 20, 30], 1, false, 300⟩ = ⟨[10, 20, 30], 1, false, 300⟩) ∧
    ((1 : Int) = 0 →
      stepBackward 1 ⟨[10, 20, 30], 1, false, 300⟩ = ⟨[10, 20, 30], 1, false, 300⟩) :=
  c2_step_clamped ⟨[10, 20, 30], 1, false, 300⟩ 1 (by norm_num)
    (by norm_num) (by show (1 : Int) ≤ (3 : Int) - 1; norm_num)

/-- C3 (counterexample): with an empty timestamp list, `play()` still flips
the playing flag to true — it is not a no-op as the claim requires. -/
theorem c3_play_counterexample :
    play ⟨[], 0, false, 300⟩ ≠ ⟨[], 0, false, 300⟩ ∧
    (play ⟨[], 0, false, 300⟩).isPlaying = true := by
  constructor
  · intro h
    exact Bool.false_ne_true (congrArg ReplayState.isPlaying h).symm
  · rfl

/-- C3 (amended): `play()`, `pause()` and `togglePlay()` set / clear / negate
the playing flag unconditionally — also when the timestamp list is empty —
and change nothing else; toggling twice restores the state and pausing after
playing equals pausing. -/
theorem c3_play_pause_toggle_unconditional (s : ReplayState) :
    play s = { s with isPlaying := true } ∧
    pause s = { s with isPlaying := false } ∧
    togglePlay s = { s with isPlaying := !s.isPlaying } ∧
    togglePlay (togglePlay s) = s ∧
    pause (play s) = pause s := by
  refine ⟨rfl, rfl, rfl, ?_, rfl⟩
  simp [togglePlay]

/-- C8: re-initializing with the same timestamp sequence is idempotent —
the second `initialize` reproduces the state of the first exactly, and after
either the index is 0 and playback is paused. -/
theorem c8_init_idempotent (ts : List Int) (s : ReplayState) :
    initReplay ts (initReplay ts s) = initReplay ts s ∧
    (initReplay ts s).currentIndex = 0 ∧
    (initReplay ts s).isPlaying = false := by
  refine ⟨rfl, rfl, rfl⟩

/-- C10: with an empty timestamp list, `setIndex(i)` computes
`Math.max(0, Math.min(i, -1))`; because the lower clamp is applied last, the
stored index is exactly 0 for every argument `i`, never negative. -/
theorem c10_setIndex_empty_is_zero (i : Int) (s : ReplayState)
    (h : s.timestamps = []) : (setIndex i s).currentIndex = 0 := by
  show max 0 (min i (totalCandles s - 1)) = 0
  have : totalCandles s = 0 := by simp [totalCandles, h]
  omega

/-- C10 (witness): `setIndex(-7)` on an empty-timeline state stores index 0. -/
theorem c10_setIndex_empty_is_zero_witness :
    (setIndex (-7) ⟨[], 5, true, 300⟩).currentIndex = 0 :=
  c10_setIndex_empty_is_zero (-7) ⟨[], 5, true, 300⟩ rfl

/-- A found index survives appending columns on the right. -/
theorem findIdxN_append_left {p : String → Bool} {l : List String} {i : Nat}
    (e : List String) (h : findIdxN p l = some i) :
    findIdxN p (l ++ e) = some i := by
  induction l generalizing i with
  | nil => exact Option.noConfusion h
  | cons a as ih =>
      by_cases hpa : p a
      · simp [findIdxN, hpa] at h ⊢
        exact h
      · simp only [findIdxN, hpa, if_false, List.cons_append, List.append_eq] at h ⊢
        cases hq : findIdxN p as with
        | none => rw [hq] at h; simp at h
        | some j =>
            rw [hq] at h
            rw [ih hq]
            exact h

/-- If neither part matches, the concatenation does not match. -/
theorem findIdxN_append_none {p : String → Bool} {l e : List String}
    (hl : findIdxN p l = none) (he : findIdxN p e = none) :
    findIdxN p (l ++ e) = none := by
  induction l with
  | nil => simpa using he
  | cons a as ih =>
      by_cases hpa : p a
      · simp [findIdxN, hpa] at hl
      · simp only [findIdxN, hpa, if_false, List.cons_append, List.append_eq] at hl ⊢
        cases hq : findIdxN p as with
        | none => rw [ih (by simpa using hl)]; rfl
        | some j => rw [hq] at hl; simp at hl

/-- `findIndex` (as JS integer) is unchanged by appending non-matching
columns. -/
theorem findIdxInt_append {p : String → Bool} {l e : List String}
    (he : findIdxN p e = none) :
    findIdxInt p (l ++ e) = findIdxInt p l := by
  unfold findIdxInt
  cases h : findIdxN p l with
  | some i => rw [findIdxN_append_left e h]
  | none => rw [findIdxN_append_none h he]

/-- If no element of `e` matches the predicate, `findIdxN` on `e` is `none`. -/
theorem findIdxN_eq_none_of_all {p : String → Bool} {e : List String}
    (h : ∀ t ∈ e, p t = false) : findIdxN p e = none := by
  induction e with
  | nil => rfl
  | cons a as ih =>
      simp only [findIdxN, h a (by simp), if_false]
      rw [ih (fun t ht => h t (by simp [ht]))]
      rfl

/-- `contains` is unchanged by appending elements that are all different from
the sought value. -/
theorem contains_append_of_not_mem {l e : List String} {a : String}
    (he : ∀ t ∈ e, t ≠ a) : (l ++ e).contains a = l.contains a := by
  have hne : a ∉ e := fun hmem => he a hmem rfl
  simp only [List.contains, List.elem_eq_mem, List.mem_append]
  simp [hne]

/-- `findCol` is unchanged by appending columns that match none of the sought
names under the equals-or-endsWith test. -/
theorem findCol_append {l e : List String} {names : List String}
    (h : ∀ n ∈ names, findIdxN (colMatch n) e = none) :
    findCol (l ++ e) names = findCol l names := by
  induction names with
  | nil => rfl
  | cons n rest ih =>
      simp only [findCol]
      rw [findIdxInt_append (h n (by simp))]
      split
      · rfl
      · exact ih (fun n' hn' => h n' (by simp [hn']))

/-- `headD` is unchanged by appending when the first part is nonempty. -/
theorem headD_append {l e : List String} {d : String} (h : l ≠ []) :
    (l ++ e).headD d = l.headD d := by
  cases l with
  | nil => exact absurd rfl h
  | cons x xs => rfl

/-- A failing `colMatch` forces inequality with the name. -/
theorem ne_of_colMatch_false {n t : String} (h : colMatch n t = false) : t ≠ n := by
  intro he
  subst he
  simp [colMatch] at h

/-- C6 (counterexample): the header `date,open,high,low,close` matches rule 2
with no volume column (`-1`); appending the extra trailing column `volume`
changes the detected mapping, whose volume index becomes 5 — detection is
not independent of arbitrary extra trailing columns. -/
theorem c6_extra_volume_counterexample :
    detectFormat ["date", "open", "high", "low", "close"] =
      some ⟨0, 1, 2, 3, 4, -1, .stooq⟩ ∧
    detectFormat (["date", "open", "high", "low", "close"] ++ ["volume"]) =
      some ⟨0, 1, 2, 3, 4, 5, .stooq⟩ ∧
    (⟨0, 1, 2, 3, 4, -1, .stooq⟩ : ColumnMapping) ≠ ⟨0, 1, 2, 3, 4, 5, .stooq⟩ := by
  refine ⟨by decide, by decide, by decide⟩

/-- C6 (amended): for every header `h` matching one of detection rules 1–4
(equivalently, `detectFormat h` succeeds with a tag other than the rule-5
`unix_auto`), appending extra columns whose normalized names neither equal
nor end with any name the detector recognizes (`recognizedNames`, the
equals-or-endsWith test `colMatch`) leaves the detection result — rule
chosen, column indices, and timestamp-encoding tag — unchanged.  Without
that restriction an appended column can be picked up, e.g. as the volume
column (see the counterexample). -/
theorem c6_detect_append_invariant (h e : List String) (m : ColumnMapping)
    (hm : detectFormat h = some m) (hfmt : m.timestampFormat ≠ TSFormat.unix_auto)
    (hcl : ∀ t ∈ e, ∀ n ∈ recognizedNames, colMatch n (normalizeHeader t) = false) :
    detectFormat (h ++ e) = detectFormat h := by
  have hlne : h ≠ [] := by
    intro h0
    subst h0
    rw [show detectFormat [] = none from by decide] at hm
    exact Option.noConfusion hm
  have hmap : (h ++ e).map normalizeHeader = h.map normalizeHeader ++ e.map normalizeHeader :=
    List.map_append _ _ _
  set L := h.map normalizeHeader with hLdef
  set E := e.map normalizeHeader with hEdef
  have hLne : L ≠ [] := by
    cases h with
    | nil => exact absurd rfl hlne
    | cons x xs => simp [hLdef]
  have hE : ∀ t ∈ E, ∀ n ∈ recognizedNames, colMatch n t = false := by
    intro t ht n hn
    obtain ⟨t₀, ht₀, rfl⟩ := List.mem_map.mp ht
    exact hcl t₀ ht₀ n hn
  have hEne : ∀ n ∈ recognizedNames, ∀ t ∈ E, t ≠ n :=
    fun n hn t ht => ne_of_colMatch_false (hE t ht n hn)
  have hEfid : ∀ n ∈ recognizedNames, findIdxN (colMatch n) E = none :=
    fun n hn => findIdxN_eq_none_of_all (fun t ht => hE t ht n hn)
  have hEeq : ∀ n ∈ recognizedNames, findIdxN (fun x => x = n) E = none := by
    intro n hn
    apply findIdxN_eq_none_of_all
    intro t ht
    simpa using hEne n hn t ht
  have hf : ∀ names : List String, (∀ n ∈ names, n ∈ recognizedNames) →
      findCol (L ++ E) names = findCol L names :=
    fun _ hsub => findCol_append (fun n hn => hEfid n (hsub n hn))
  have hf_open : findCol (L ++ E) ["open"] = findCol L ["open"] := hf _ (by decide)
  have hf_high : findCol (L ++ E) ["high"] = findCol L ["high"] := hf _ (by decide)
  have hf_low : findCol (L ++ E) ["low"] = findCol L ["low"] := hf _ (by decide)
  have hf_close : findCol (L ++ E) ["close"] = findCol L ["close"] := hf _ (by decide)
  have hf_vol1 : findCol (L ++ E) ["volume"] = findCol L ["volume"] := hf _ (by decide)
  have hf_vol2 : findCol (L ++ E) ["volume", "vol"] = findCol L ["volume", "vol"] :=
    hf _ (by decide)
  have hf_vol3 : findCol (L ++ E) ["vol", "volume"] = findCol L ["vol", "volume"] :=
    hf _ (by decide)
  have hf_ts : findCol (L ++ E) ["timestamp", "time", "datetime", "date"] =
      findCol L ["timestamp", "time", "datetime", "date"] := hf _ (by decide)
  have hcont : ∀ n ∈ recognizedNames, (L ++ E).contains n = L.contains n :=
    fun n hn => contains_append_of_not_mem (hEne n hn)
  have hhead : (L ++ E).headD "" = L.headD "" := headD_append hLne
  have hidx : ∀ n ∈ recognizedNames, indexOfStr (L ++ E) n = indexOfStr L n :=
    fun n hn => findIdxInt_append (hEeq n hn)
  have h1c : rule1Cond (L ++ E) = rule1Cond L := by
    unfold rule1Cond
    rw [hcont "open_time" (by decide), hhead]
  have h1m : rule1Map (L ++ E) = rule1Map L := by
    unfold rule1Map
    rw [hidx "open_time" (by decide), hf_open, hf_high, hf_low, hf_close, hf_vol1]
  have h2c : rule2Cond (L ++ E) = rule2Cond L := by
    unfold rule2Cond
    rw [hcont "date" (by decide), hcont "open" (by decide)]
  have h2m : rule2Map (L ++ E) = rule2Map L := by
    unfold rule2Map
    rw [hidx "date" (by decide), hf_open, hf_high, hf_low, hf_close, hf_vol2]
  have h3c : rule3Cond (L ++ E) = rule3Cond L := by
    unfold rule3Cond
    rw [hcont "dtyyyymmdd" (by decide), hcont "date" (by decide), hhead]
  have h3m : rule3Map (L ++ E) = rule3Map L := by
    unfold rule3Map
    rw [hf_open, hf_high, hf_low, hf_close, hf_vol3]
  have h4c : rule4Cond (L ++ E) = rule4Cond L := by
    unfold rule4Cond
    rw [hf_ts, hf_open, hf_high, hf_low, hf_close]
  have h4m : rule4Map (L ++ E) = rule4Map L := by
    unfold rule4Map
    rw [hf_ts, hf_open, hf_high, hf_low, hf_close, hf_vol2]
  show detectFromLower ((h ++ e).map normalizeHeader) = detectFromLower L
  rw [hmap]
  unfold detectFromLower
  rw [h1c, h1m, h2c, h2m, h3c, h3m, h4c, h4m]
  by_cases q1 : rule1Cond L
  · simp [q1]
  · by_cases q2 : rule2Cond L
    · simp [q1, q2]
    · by_cases q3 : rule3Cond L
      · simp [q1, q2, q3]
      · by_cases q4 : rule4Cond L
        · simp [q1, q2, q3, q4]
        · exfalso
          have hm' : detectFromLower L = some m := hm
          unfold detectFromLower at hm'
          rw [if_neg q1, if_neg q2, if_neg q3, if_neg q4] at hm'
          unfold rule5 at hm'
          by_cases q5 : 5 ≤ L.length
          · rw [if_pos q5] at hm'
            apply hfmt
            rw [← Option.some.inj hm']
          · rw [if_neg q5] at hm'
            exact Option.noConfusion hm'

/-- C6 (witness): the amendment applied to the rule-2 header
`date,open,high,low,close` and the unrecognized extra column `foo`. -/
theorem c6_detect_append_invariant_witness :
    detectFormat (["date", "open", "high", "low", "close"] ++ ["foo"]) =
      detectFormat ["date", "open", "high", "low", "close"] :=
  c6_detect_append_invariant ["date", "open", "high", "low", "close"] ["foo"]
    ⟨0, 1, 2, 3, 4, -1, .stooq⟩ (by decide) (by decide) (by decide)

/-- A non-throwing row contributes a bar exactly when the keep criterion of
the claim holds: at least 5 fields and all required numeric fields parse. -/
theorem parseRowOk_isSome (pTs : Option String → Except Unit (Option ℚ))
    (pNum : Option String → Option ℚ) (m : ColumnMapping) (cols : List String)
    (h : parseRow pTs pNum m cols ≠ .error ()) :
    (parseRowOk pTs pNum m cols).isSome = rowKept pTs pNum m cols := by
  unfold parseRowOk rowKept parseRow at *
  by_cases h5 : cols.length < 5
  · have h5' : ¬ (5 ≤ cols.length) := by omega
    simp [if_pos h5, h5']
  · have h5' : 5 ≤ cols.length := by omega
    rw [if_neg h5] at h ⊢
    cases hts : pTs (getField cols m.timestamp) with
    | error e =>
        rw [hts] at h
        cases e
        exact absurd rfl h
    | ok ts? =>
        clear h
        rcases ts? with _ | t <;>
          rcases ho : pNum (getField cols m.«open») with _ | o <;>
          rcases hh : pNum (getField cols m.high) with _ | hi <;>
          rcases hl : pNum (getField cols m.low) with _ | lo <;>
          rcases hc : pNum (getField cols m.close) with _ | cl <;>
            simp [h5', ho, hh, hl, hc]

/-- A kept row whose volume column is absent (index `-1`) or unparsable gets
volume 0. -/
theorem parseRow_volume_default (pTs : Option String → Except Unit (Option ℚ))
    (pNum : Option String → Option ℚ) (m : ColumnMapping) (cols : List String)
    (c : OHLCCandle) (hp : parseRow pTs pNum m cols = .ok (some c))
    (hv : m.volume < 0 ∨ pNum (getField cols m.volume) = none) :
    c.volume = 0 := by
  unfold parseRow at hp
  by_cases h5 : cols.length < 5
  · rw [if_pos h5] at hp
    simp at hp
  · rw [if_neg h5] at hp
    cases hts : pTs (getField cols m.timestamp) with
    | error e =>
        rw [hts] at hp
        exact Except.noConfusion hp
    | ok ts? =>
        rw [hts] at hp
        rcases ts? with _ | t
        · simp at hp
        · rcases ho : pNum (getField cols m.«open») with _ | o
          · simp [ho] at hp
          · rcases hh : pNum (getField cols m.high) with _ | hi
            · simp [ho, hh] at hp
            · rcases hl : pNum (getField cols m.low) with _ | lo
              · simp [ho, hh, hl] at hp
              · rcases hc : pNum (getField cols m.close) with _ | cl
                · simp [ho, hh, hl, hc] at hp
                · simp only [ho, hh, hl, hc, Except.ok.injEq, Option.some.injEq] at hp
                  subst hp
                  show (if 0 ≤ m.volume then (pNum (getField cols m.volume)).getD 0 else 0) = 0
                  rcases hv with hv | hv
                  · rw [if_neg (by omega)]
                  · rw [hv]
                    split <;> rfl

/-- Under no throwing row, the row loop succeeds and returns exactly the bars
the rows contribute, in order. -/
theorem rowsLoop_eq_ok (pTs : Option String → Except Unit (Option ℚ))
    (pNum : Option String → Option ℚ) (m : ColumnMapping) (rows : List (List String))
    (hnt : ∀ cols ∈ rows, parseRow pTs pNum m cols ≠ .error ()) :
    rowsLoop pTs pNum m rows = .ok (rows.filterMap (parseRowOk pTs pNum m)) := by
  induction rows with
  | nil => rfl
  | cons cols rest ih =>
      have ih' := ih (fun c hc => hnt c (by simp [hc]))
      cases hp : parseRow pTs pNum m cols with
      | error e =>
          cases e
          exact absurd hp (hnt cols (by simp))
      | ok c? =>
          cases c? with
          | none =>
              have hro : parseRowOk pTs pNum m cols = none := by simp [parseRowOk, hp]
              simp [rowsLoop, hp, ih', List.filterMap_cons, hro]
          | some c =>
              have hro : parseRowOk pTs pNum m cols = some c := by simp [parseRowOk, hp]
              simp [rowsLoop, hp, ih', List.filterMap_cons, hro]

/-- The number of contributed bars equals the number of rows satisfying the
keep criterion. -/
theorem filterMap_parseRowOk_length (pTs : Option String → Except Unit (Option ℚ))
    (pNum : Option String → Option ℚ) (m : ColumnMapping) (rows : List (List String))
    (hnt : ∀ cols ∈ rows, parseRow pTs pNum m cols ≠ .error ()) :
    (rows.filterMap (parseRowOk pTs pNum m)).length =
      (rows.filter (rowKept pTs pNum m)).length := by
  induction rows with
  | nil => rfl
  | cons cols rest ih =>
      have hiso := parseRowOk_isSome pTs pNum m cols (hnt cols (by simp))
      have ih' := ih (fun c hc => hnt c (by simp [hc]))
      cases hs : parseRowOk pTs pNum m cols with
      | none =>
          rw [hs] at hiso
          simp [List.filterMap_cons, List.filter_cons, hs, ← hiso, ih']
      | some c =>
          rw [hs] at hiso
          simp [List.filterMap_cons, List.filter_cons, hs, ← hiso, ih']

/-- Keeping every element of a list keeps its length. -/
theorem filter_all_true_length {α : Type} (p : α → Bool) (l : List α)
    (h : ∀ a ∈ l, p a = true) : (l.filter p).length = l.length := by
  induction l with
  | nil => rfl
  | cons a as ih =>
      rw [List.filter_cons, if_pos (h a (by simp))]
      simp [ih (fun a ha => h a (by simp [ha]))]

/-- C7 (counterexample): dropping is not the only failure mode.  The header
`open,high,low,close,x,date` selects rule 2 with the timestamp in column 5;
on a 5-field data row the timestamp cell is `undefined`, and the `stooq`
parser (`value.replace`) **throws**, so ingestion aborts as a whole — the
row is not "dropped (not fatal)" as the claim states, and even a preceding
well-formed row yields no bar. -/
theorem c7_short_row_aborts :
    detectFormat ["open", "high", "low", "close", "x", "date"] =
      some ⟨5, 0, 1, 2, 3, -1, .stooq⟩ ∧
    processRows (stooqTs 0) parseFloatOpt ⟨5, 0, 1, 2, 3, -1, .stooq⟩
      [["1", "2", "3", "4", "5"]] = .error () ∧
    processRows (stooqTs 0) parseFloatOpt ⟨5, 0, 1, 2, 3, -1, .stooq⟩
      [["1", "2", "3", "4", "x", "2021-01-05"], ["1", "2", "3", "4", "5"]] =
      .error () := by
  refine ⟨by decide, rfl, rfl⟩

/-- C7 (amended): provided no row makes the timestamp parser throw (for the
date-based encodings a row shorter than the timestamp column index aborts
ingestion instead of being dropped), the loop drops a row exactly when it has
fewer than 5 fields or a required numeric field fails to parse (`rowKept`),
outputs the remaining bars sorted ascending by time, defaults a missing or
unparsable volume to 0, and maps N all-kept rows to exactly N bars. -/
theorem c7_drop_exact_sorted (pTs : Option String → Except Unit (Option ℚ))
    (pNum : Option String → Option ℚ) (m : ColumnMapping) (rows : List (List String))
    (hnt : ∀ cols ∈ rows, parseRow pTs pNum m cols ≠ .error ()) :
    ∃ out, processRows pTs pNum m rows = .ok out ∧
      out.length = (rows.filter (rowKept pTs pNum m)).length ∧
      out.Pairwise (fun a b => a.time ≤ b.time) ∧
      ((∀ cols ∈ rows, rowKept pTs pNum m cols = true) → out.length = rows.length) ∧
      (∀ cols c, parseRow pTs pNum m cols = .ok (some c) →
        (m.volume < 0 ∨ pNum (getField cols m.volume) = none) → c.volume = 0) := by
  refine ⟨(rows.filterMap (parseRowOk pTs pNum m)).mergeSort
      (fun a b => decide (a.time ≤ b.time)), ?_, ?_, ?_, ?_, ?_⟩
  · unfold processRows
    rw [rowsLoop_eq_ok pTs pNum m rows hnt]
  · rw [List.length_mergeSort]
    exact filterMap_parseRowOk_length pTs pNum m rows hnt
  · have hs := @List.sorted_mergeSort OHLCCandle
      (fun a b => decide (a.time ≤ b.time))
      (fun a b c hab hbc => by
        simp only [decide_eq_true_eq] at hab hbc ⊢
        exact le_trans hab hbc)
      (fun a b => by
        simpa using le_total a.time b.time)
      (rows.filterMap (parseRowOk pTs pNum m))
    exact hs.imp (fun hab => by simpa using hab)
  · intro hall
    rw [List.length_mergeSort]
    rw [filterMap_parseRowOk_length pTs pNum m rows hnt]
    exact filter_all_true_length _ _ hall
  · intro cols c hp hv
    exact parseRow_volume_default pTs pNum m cols c hp hv

/-- C7 (witness): the amendment applied to a single well-formed row under
trivial parsers: the hypothesis holds, one bar comes out, sorted. -/
theorem c7_drop_exact_sorted_witness :
    (∀ cols ∈ [["a", "b", "c", "d", "e"]],
      parseRow (fun _ => Except.ok (some 0)) (fun _ => some 1)
        ⟨0, 1, 2, 3, 4, 5, .unix_auto⟩ cols ≠ .error ()) ∧
    (∃ out, processRows (fun _ => Except.ok (some 0)) (fun _ => some 1)
        ⟨0, 1, 2, 3, 4, 5, .unix_auto⟩ [["a", "b", "c", "d", "e"]] = .ok out ∧
      out.length = ([["a", "b", "c", "d", "e"]].filter
        (rowKept (fun _ => Except.ok (some 0)) (fun _ => some 1)
          ⟨0, 1, 2, 3, 4, 5, .unix_auto⟩)).length ∧
      out.Pairwise (fun a b => a.time ≤ b.time) ∧
      ((∀ cols ∈ [["a", "b", "c", "d", "e"]],
        rowKept (fun _ => Except.ok (some 0)) (fun _ => some 1)
          ⟨0, 1, 2, 3, 4, 5, .unix_auto⟩ cols = true) →
        out.length = [["a", "b", "c", "d", "e"]].length) ∧
      (∀ cols c, parseRow (fun _ => Except.ok (some 0)) (fun _ => some 1)
          ⟨0, 1, 2, 3, 4, 5, .unix_auto⟩ cols = .ok (some c) →
        ((⟨0, 1, 2, 3, 4, 5, .unix_auto⟩ : ColumnMapping).volume < 0 ∨
          (fun _ => some (1 : ℚ)) (getField cols (5 : Int)) = none) → c.volume = 0)) := by
  have hnt : ∀ cols ∈ [["a", "b", "c", "d", "e"]],
      parseRow (fun _ => Except.ok (some 0)) (fun _ => some 1)
        ⟨0, 1, 2, 3, 4, 5, .unix_auto⟩ cols ≠ .error () := by
    intro cols hc
    have hc' : cols = ["a", "b", "c", "d", "e"] := by simpa using hc
    subst hc'
    rw [show parseRow (fun _ => Except.ok (some 0)) (fun _ => some 1)
        ⟨0, 1, 2, 3, 4, 5, .unix_auto⟩ ["a", "b", "c", "d", "e"] =
      .ok (some ⟨0, 1, 1, 1, 1, 1⟩) from rfl]
    simp
  exact ⟨hnt, c7_drop_exact_sorted (fun _ => Except.ok (some 0)) (fun _ => some 1)
    ⟨0, 1, 2, 3, 4, 5, .unix_auto⟩ [["a", "b", "c", "d", "e"]] hnt⟩

/-- C9: under a persistence layer whose every operation throws, `addSession`,
`switchSession` and the startup restore still complete (every helper they use
is wrapped in `try/catch`), but `removeSession` **throws**: its payload
delete calls `localStorage.removeItem` with no `try/catch` — the one helper
in `useDataSessions.ts` that is unprotected — so the exception escapes the
registry operation, contradicting the claim and the spec's "must never crash
registry operations". -/
theorem c9_remove_session_throws :
    removeSession failingPersistence
      ⟨[⟨"a", "A", []⟩, ⟨"b", "B", []⟩], some "a"⟩ "a" = .error () ∧
    addSession failingPersistence
      ⟨[⟨"a", "A", []⟩, ⟨"b", "B", []⟩], some "a"⟩ "c" "C" [] =
      .ok ⟨[⟨"a", "A", []⟩, ⟨"b", "B", []⟩, ⟨"c", "C", []⟩], some "c"⟩ ∧
    switchSession ⟨[⟨"a", "A", []⟩, ⟨"b", "B", []⟩], some "a"⟩ "b" =
      ⟨[⟨"a", "A", []⟩, ⟨"b", "B", []⟩], some "b"⟩ ∧
    restoreSessions failingPersistence.storage (fun _ => []) (fun _ => []) =
      ⟨[], none⟩ := by
  refine ⟨rfl, rfl, rfl, rfl⟩

/-- Evaluation helper: `parseFloat` on a plain digit string yields the
numeral its digits denote. -/
theorem parseFloatOpt_digits_eval (s : String) (cs : List Char) (q : ℚ)
    (h : parseFloatOpt (some s) =
      some ((1 : ℚ) * ((digitsToNat cs : ℚ) + (digitsToNat [] : ℚ) / (10 : ℚ) ^ (0 : ℕ))))
    (hq : (digitsToNat cs : ℚ) = q) : parseFloatOpt (some s) = some q := by
  rw [h, hq, show digitsToNat [] = 0 from by decide]
  norm_num

/-- Evaluation helper: the scenario row `2021-01-05,10,12,9,11,1000` under the
`stooq` mapping, for an arbitrary runtime timezone offset `tz` minutes east of
UTC; 1609804800 is UTC midnight of 2021-01-05. -/
theorem stooq_row_eval (tz : ℤ) :
    rowsLoop (stooqTs tz) parseFloatOpt ⟨0, 1, 2, 3, 4, 5, .stooq⟩
      [["2021-01-05", "10", "12", "9", "11", "1000"]] =
    .ok [⟨((1609804800 - tz * 60 : ℤ) : ℚ), 10, 12, 9, 11, 1000⟩] := by
  have hts : stooqTs tz (getField ["2021-01-05", "10", "12", "9", "11", "1000"] 0) =
      .ok (some ((1609804800 - tz * 60 : ℤ) : ℚ)) := rfl
  have f10 : parseFloatOpt (some "10") = some 10 :=
    parseFloatOpt_digits_eval "10" ['1', '0'] 10 rfl (by norm_num [show digitsToNat ['1', '0'] = 10 from by decide])
  have f12 : parseFloatOpt (some "12") = some 12 :=
    parseFloatOpt_digits_eval "12" ['1', '2'] 12 rfl (by norm_num [show digitsToNat ['1', '2'] = 12 from by decide])
  have f9 : parseFloatOpt (some "9") = some 9 :=
    parseFloatOpt_digits_eval "9" ['9'] 9 rfl (by norm_num [show digitsToNat ['9'] = 9 from by decide])
  have f11 : parseFloatOpt (some "11") = some 11 :=
    parseFloatOpt_digits_eval "11" ['1', '1'] 11 rfl (by norm_num [show digitsToNat ['1', '1'] = 11 from by decide])
  have f1000 : parseFloatOpt (some "1000") = some 1000 :=
    parseFloatOpt_digits_eval "1000" ['1', '0', '0', '0'] 1000 rfl
      (by norm_num [show digitsToNat ['1', '0', '0', '0'] = 1000 from by decide])
  have hrow : parseRow (stooqTs tz) parseFloatOpt ⟨0, 1, 2, 3, 4, 5, .stooq⟩
      ["2021-01-05", "10", "12", "9", "11", "1000"] =
      .ok (some ⟨((1609804800 - tz * 60 : ℤ) : ℚ), 10, 12, 9, 11, 1000⟩) := by
    simp only [parseRow]
    rw [if_neg (by norm_num)]
    rw [hts,
      show getField ["2021-01-05", "10", "12", "9", "11", "1000"] 1 = some "10" from rfl,
      show getField ["2021-01-05", "10", "12", "9", "11", "1000"] 2 = some "12" from rfl,
      show getField ["2021-01-05", "10", "12", "9", "11", "1000"] 3 = some "9" from rfl,
      show getField ["2021-01-05", "10", "12", "9", "11", "1000"] 4 = some "11" from rfl,
      show getField ["2021-01-05", "10", "12", "9", "11", "1000"] 5 = some "1000" from rfl,
      f10, f12, f9, f11, f1000]
    norm_num
  simp only [rowsLoop, hrow]

/-- C4: the header `Date,Open,High,Low,Close,Volume` does select the
compact-date (`stooq`) mapping with the claimed column indices, and at UTC
(timezone offset 0) the row `2021-01-05,10,12,9,11,1000` yields exactly the
claimed bar with time 1609804800 (UTC midnight of 2021-01-05).  But the
parser builds `new Date(y, m, d)` — **local** midnight — so in any non-UTC
runtime the produced time differs: at UTC+1 (offset 60 min) the same row
yields 1609801200, not UTC midnight, contradicting the claim (and the spec's
deterministic-ingestion intent, which calls for `Date.UTC`). -/
theorem c4_stooq_is_local_midnight :
    detectFormat ["Date", "Open", "High", "Low", "Close", "Volume"] =
      some ⟨0, 1, 2, 3, 4, 5, .stooq⟩ ∧
    processRows (stooqTs 0) parseFloatOpt ⟨0, 1, 2, 3, 4, 5, .stooq⟩
      [["2021-01-05", "10", "12", "9", "11", "1000"]] =
      .ok [⟨1609804800, 10, 12, 9, 11, 1000⟩] ∧
    processRows (stooqTs 60) parseFloatOpt ⟨0, 1, 2, 3, 4, 5, .stooq⟩
      [["2021-01-05", "10", "12", "9", "11", "1000"]] =
      .ok [⟨1609801200, 10, 12, 9, 11, 1000⟩] ∧
    (1609801200 : ℚ) ≠ 1609804800 := by
  have h0 := stooq_row_eval 0
  have h60 := stooq_row_eval 60
  rw [show ((1609804800 - 0 * 60 : ℤ) : ℚ) = 1609804800 from by norm_num] at h0
  rw [show ((1609804800 - 60 * 60 : ℤ) : ℚ) = 1609801200 from by norm_num] at h60
  refine ⟨by decide, ?_, ?_, by norm_num⟩
  · simp [processRows, h0]
  · simp [processRows, h60]

/-- C5 (counterexample): the value 10000000000 = 10^10 has 11 digits, so the
claimed digit-count rule calls for the milliseconds scale (divide by 1000,
giving 10000000); the code compares against the magnitude threshold 1e12
instead and returns the value unchanged. -/
theorem c5_digit_rule_counterexample :
    digitCount 10000000000 = 11 ∧
    specDigitScale 10000000000 = 10000000 ∧
    parseUnixAuto 10000000000 = 10000000000 ∧
    (10000000000 : ℚ) ≠ 10000000 := by
  refine ⟨by decide, by decide, ?_, by norm_num⟩
  norm_num [parseUnixAuto]

/-- C5 (amended): in the headerless fallback the per-row scale is chosen by
magnitude, not digit count: a value `v ≤ 10^12` is returned unchanged as
seconds, `10^12 < v ≤ 10^15` is treated as milliseconds (`⌊v/1000⌋`), and
`v > 10^15` as microseconds (`⌊v/10^6⌋`).  (The 10/13/16-digit wording only
matches these thresholds for typical timestamp magnitudes; 11- and 12-digit
values, for instance, are returned unchanged.)  Stated over nonnegative
integers, with the flooring made explicit as natural division. -/
theorem c5_magnitude_scale (v : ℕ) :
    parseUnixAuto (v : ℚ) =
      ((if 10 ^ 15 < v then v / 1000000
        else if 10 ^ 12 < v then v / 1000
        else v : ℕ) : ℚ) := by
  have hdiv : ∀ d : ℕ, 0 < d → (⌊(v : ℚ) / (d : ℚ)⌋ : ℤ) = ((v / d : ℕ) : ℤ) := by
    intro d _
    rw [show ((v : ℚ)) = ((v : ℤ) : ℚ) by norm_cast]
    rw [Rat.floor_intCast_div_natCast (v : ℤ) d]
    exact (Int.ofNat_tdiv v d).symm
  unfold parseUnixAuto
  by_cases h15 : (10 : ℚ) ^ 15 < (v : ℚ)
  · have h15n : 10 ^ 15 < v := by exact_mod_cast h15
    rw [if_pos h15, if_pos h15n]
    norm_cast
  · have h15n : ¬ 10 ^ 15 < v := by
      intro hc
      exact h15 (by exact_mod_cast hc)
    rw [if_neg h15, if_neg h15n]
    by_cases h12 : (10 : ℚ) ^ 12 < (v : ℚ)
    · have h12n : 10 ^ 12 < v := by exact_mod_cast h12
      rw [if_pos h12, if_pos h12n]
      norm_cast
    · have h12n : ¬ 10 ^ 12 < v := by
        intro hc
        exact h12 (by exact_mod_cast hc)
      rw [if_neg h12, if_neg h12n]

end ReplayTrader
